import Mathlib

/-!
Shallow embedding of src/route.py (distance-proportional route-map generator).

The script loads a CSV into a dataframe, coerces the distance column
이정(km) to numbers (failures become NaN), classifies each record into the
영암 (Yeongam) and/or 순천 (Suncheon) direction by substring matching on the
name, applies the sidebar multiselect filters, sorts each direction by km
(Yeongam descending, Suncheon ascending, NaN last as pandas does), numbers
the rows 1..n, groups nearby rows by a km threshold, lays out group labels
with a cyclic offset pattern clamped to the axis, draws fixed reference
points, and exports a two-page PDF (route diagram, then bridge list) into
an in-memory buffer offered for download.

Records are modelled by the structure Row; a km value of none models NaN
(the result of a failed pd.to_numeric coercion). Lists model dataframes in
row order.
-/

namespace CreateRoute

/-- Does the character list start with the given pattern? Helper for
substring containment. -/
def charStartsWith : List Char → List Char → Bool
  | [], _ => true
  | _ :: _, [] => false
  | p :: ps, c :: cs => p == c && charStartsWith ps cs

/-- Does the character list contain the pattern as a contiguous sublist? -/
def charContains (pat : List Char) : List Char → Bool
  | [] => charStartsWith pat []
  | c :: cs => charStartsWith pat (c :: cs) || charContains pat cs

/-- Models pandas Series.str.contains(pat): substring containment on the
name string (route.py lines 55-56). -/
def strContains (s pat : String) : Bool :=
  charContains pat.toList s.toList

/-- One CSV record after loading. km is the 이정(km) column after
pd.to_numeric(errors="coerce") on line 40: none models NaN. typ is the
종별구분 column. -/
structure Row where
  name : String
  km : Option ℚ
  typ : String
deriving DecidableEq, Repr

/-- route.py line 55: the name contains the substring 영암. -/
def has_yeongam (r : Row) : Bool := strContains r.name "영암"

/-- route.py line 56: the name contains the substring 순천. -/
def has_suncheon (r : Row) : Bool := strContains r.name "순천"

/-- route.py line 57: neutral records match neither direction marker. -/
def neutral (r : Row) : Bool := !(has_yeongam r || has_suncheon r)

/-- route.py line 93: df_up_base = df[has_yeongam | neutral]. -/
def df_up_base (rows : List Row) : List Row :=
  rows.filter (fun r => has_yeongam r || neutral r)

/-- route.py line 94: df_down_base = df[has_suncheon | neutral]. -/
def df_down_base (rows : List Row) : List Row :=
  rows.filter (fun r => has_suncheon r || neutral r)

/-- route.py line 96: df_up = df[df[NAME_COL].isin(selected_yeongam)] if
selected_yeongam else df_up_base. An empty selection means the full base
set; a non-empty selection filters the whole dataframe by name. -/
def df_up (rows : List Row) (selected_yeongam : List String) : List Row :=
  if selected_yeongam = [] then df_up_base rows
  else rows.filter (fun r => selected_yeongam.contains r.name)

/-- route.py line 97: same for the Suncheon direction. -/
def df_down (rows : List Row) (selected_suncheon : List String) : List Row :=
  if selected_suncheon = [] then df_down_base rows
  else rows.filter (fun r => selected_suncheon.contains r.name)

/-- Key order used by sort_values(ascending=False): larger km first, NaN
last (pandas default na_position). -/
def kmDescLe : Option ℚ → Option ℚ → Bool
  | _, none => true
  | none, some _ => false
  | some x, some y => y ≤ x

/-- Key order used by sort_values(ascending=True): smaller km first, NaN
last. -/
def kmAscLe : Option ℚ → Option ℚ → Bool
  | _, none => true
  | none, some _ => false
  | some x, some y => x ≤ y

/-- Sort a list of records by the km projection, descending, NaN last
(route.py lines 100, 204). -/
def sortKmDesc {α : Type} (km : α → Option ℚ) (l : List α) : List α :=
  l.mergeSort (fun a b => kmDescLe (km a) (km b))

/-- Sort a list of records by the km projection, ascending, NaN last
(route.py lines 104, 245). -/
def sortKmAsc {α : Type} (km : α → Option ℚ) (l : List α) : List α :=
  l.mergeSort (fun a b => kmAscLe (km a) (km b))

/-- A record paired with its assigned display number 번호. -/
abbrev NumRow := Row × Nat

/-- The km value of a numbered record. -/
def kmOf (r : NumRow) : Option ℚ := r.1.km

/-- Number the rows of a sorted table starting from k: the row at 0-based
position i of the reset index receives number k + i. -/
def numberFrom (k : Nat) : List Row → List NumRow
  | [] => []
  | r :: rs => (r, k) :: numberFrom (k + 1) rs

/-- route.py lines 101, 105: 번호 = index + 1 after reset_index, so the row
at position i receives i + 1. -/
def assign_numbers (l : List Row) : List NumRow := numberFrom 1 l

/-- route.py lines 100-101: the Yeongam table, sorted by km descending and
numbered 1..n. -/
def df_up_sorted (rows : List Row) (selected_yeongam : List String) : List NumRow :=
  assign_numbers (sortKmDesc Row.km (df_up rows selected_yeongam))

/-- route.py lines 104-105: the Suncheon table, sorted by km ascending and
numbered 1..n. -/
def df_down_sorted (rows : List Row) (selected_suncheon : List String) : List NumRow :=
  assign_numbers (sortKmAsc Row.km (df_down rows selected_suncheon))

/-! Grouping of nearby rows (route.py lines 182-201). The Python generator
walks the sorted table, skips NaN rows, starts a new group whenever the km
gap to the previous non-NaN row exceeds the threshold, and yields the
pending group at the end. The loop state is the previous non-NaN km and
the pending group. -/

/-- Loop of iter_groups: prevKm is the km of the last non-NaN row seen,
group the pending group (in iteration order). -/
def iterGroupsLoop (t : ℚ) : Option ℚ → List NumRow → List NumRow → List (List NumRow)
  | _, group, [] => if group = [] then [] else [group]
  | prevKm, group, r :: rest =>
    match kmOf r with
    | none => iterGroupsLoop t prevKm group rest
    | some km =>
      match prevKm with
      | none => iterGroupsLoop t (some km) [r] rest
      | some pk =>
        if |pk - km| ≤ t then iterGroupsLoop t (some km) (group ++ [r]) rest
        else group :: iterGroupsLoop t (some km) [r] rest

/-- route.py lines 182-201: partition the non-NaN rows of a sorted table
into maximal runs whose consecutive km gaps are at most the threshold. -/
def iter_groups (t : ℚ) (l : List NumRow) : List (List NumRow) :=
  iterGroupsLoop t none [] l

/-! Label layout constants and helpers (route.py lines 121-140). -/

def MIN_KM : ℚ := 0

def MAX_KM : ℚ := 1068 / 10

def y_up : ℚ := 1

def y_down : ℚ := 0

def EDGE_MARGIN_KM : ℚ := 3 / 2

/-- route.py line 135: the fixed six-element horizontal offset pattern. -/
def X_OFFSETS : List ℚ := [-(4/5), 4/5, -(8/5), 8/5, -(12/5), 12/5]

/-- route.py line 136: the six vertical label levels of the upper line. -/
def UP_Y_LEVELS : List ℚ :=
  [y_up + 12/100, y_up - 10/100, y_up + 4/100, y_up - 18/100, y_up + 20/100, y_up - 28/100]

/-- route.py line 137: the six vertical label levels of the lower line. -/
def DOWN_Y_LEVELS : List ℚ :=
  [y_down + 12/100, y_down - 10/100, y_down + 20/100, y_down - 18/100, y_down + 28/100, y_down - 26/100]

/-- route.py lines 139-140: clamp an x coordinate into the plot. -/
def clamp_x (x : ℚ) : ℚ := min (max x (MIN_KM + 5/100)) (MAX_KM - 5/100)

/-- route.py line 221: x_offset = X_OFFSETS[g_idx % len(X_OFFSETS)]. -/
def x_offset_of (g_idx : Nat) : ℚ := X_OFFSETS.getD (g_idx % X_OFFSETS.length) 0

/-- route.py line 222: y_text = LEVELS[g_idx % len(LEVELS)]. -/
def y_level (levels : List ℚ) (g_idx : Nat) : ℚ := levels.getD (g_idx % levels.length) 0

/-- route.py lines 224-229: the unclamped label x position; the offset is
pointed inward when the anchor is within EDGE_MARGIN_KM of either end. -/
def x_raw (g_idx : Nat) (km_anchor : ℚ) : ℚ :=
  let off := x_offset_of g_idx
  if km_anchor < MIN_KM + EDGE_MARGIN_KM then km_anchor + |off|
  else if km_anchor > MAX_KM - EDGE_MARGIN_KM then km_anchor - |off|
  else km_anchor + off

/-- route.py line 231: the final label x position after clamping. -/
def x_text_of (g_idx : Nat) (km_anchor : ℚ) : ℚ := clamp_x (x_raw g_idx km_anchor)

/-- route.py lines 207, 248: the non-NaN km values of a group. -/
def group_kms (g : List NumRow) : List ℚ := g.filterMap kmOf

/-- Smallest display number of a group (route.py line 216). -/
def group_min_num (g : List NumRow) : Nat := (g.map Prod.snd).min?.getD 0

/-- Largest display number of a group (route.py line 216). -/
def group_max_num (g : List NumRow) : Nat := (g.map Prod.snd).max?.getD 0

/-- route.py line 217: the grouped label text (n1~n2) or (n1). -/
def label_text (g : List NumRow) : String :=
  let n1 := group_min_num g
  let n2 := group_max_num g
  if n1 = n2 then "(" ++ toString n1 ++ ")"
  else "(" ++ toString n1 ++ "~" ++ toString n2 ++ ")"

/-- One rendered group label: text position, text, and the anchor the
leader line starts from. -/
structure GroupLabel where
  x : ℚ
  y : ℚ
  text : String
  anchor : ℚ
deriving DecidableEq, Repr

/-- route.py lines 206-242 loop body for one enumerated group: skipped when
the group has no non-NaN km (continue on line 209); otherwise the label is
placed at the pattern offset from the mean anchor and clamped. -/
def mk_group_label (levels : List ℚ) (g_idx : Nat) (g : List NumRow) : Option GroupLabel :=
  let kms := group_kms g
  if kms = [] then none
  else
    let km_anchor := kms.sum / kms.length
    some ⟨x_text_of g_idx km_anchor, y_level levels g_idx, label_text g, km_anchor⟩

/-- The marker positions of one direction: every non-NaN km of every group
receives a scatter marker (route.py lines 212-213, 252-253). -/
def dir_markers (t : ℚ) (sorted : List NumRow) : List ℚ :=
  ((iter_groups t sorted).map group_kms).flatten

/-- The group labels of one direction, in group order (route.py lines
206-242, 247-282). -/
def dir_labels (levels : List ℚ) (t : ℚ) (sorted : List NumRow) : List GroupLabel :=
  (iter_groups t sorted).enum.filterMap (fun p => mk_group_label levels p.1 p.2)

/-! Fixed reference points (route.py lines 78-87, 150-180). -/

/-- route.py lines 78-87: the always-displayed reference points. -/
def FIXED_POINTS : List (String × ℚ) :=
  [("서영암", 38/100), ("학산", 534/100), ("강진", 1953/100), ("장흥", 3826/100),
   ("지사 기준", 61), ("벌교", 7971/100), ("고흥", 8391/100), ("순천만", 10027/100)]

/-- A vertical line of the diagram: position, vertical extent, linewidth. -/
structure VLine where
  km : ℚ
  yBot : ℚ
  yTop : ℚ
  lw : ℚ
deriving DecidableEq, Repr

/-- A fixed-point text label: position and name. -/
structure FixedLabel where
  x : ℚ
  y : ℚ
  name : String
deriving DecidableEq, Repr

/-- route.py line 153: the fixed-point label is raised by 0.4. -/
def TEXT_DY : ℚ := 40 / 100

/-- route.py lines 155-180: each fixed point inside [MIN_KM, MAX_KM] is
drawn as a through-going vertical line (thicker for 지사 기준) with its
label at y_up + TEXT_DY; out-of-range points are skipped. -/
def draw_fixed_points (fps : List (String × ℚ)) : List (VLine × FixedLabel) :=
  fps.filterMap (fun p =>
    if p.2 < MIN_KM ∨ p.2 > MAX_KM then none
    else
      some (⟨p.2, y_down - 35/100, y_up + 35/100, if p.1 = "지사 기준" then 22/10 else 12/10⟩,
            ⟨p.2, y_up + TEXT_DY, p.1⟩))

/-- route.py lines 111-112: km of the first record whose 종별구분 contains
IC, none when there is no such record or its km is NaN. -/
def ic_km_of (rows : List Row) : Option ℚ :=
  match rows.filter (fun r => strContains r.typ "IC") with
  | [] => none
  | r :: _ => r.km

/-- Everything draw_route puts on the figure. -/
structure RouteFig where
  upMarkers : List ℚ
  upLabels : List GroupLabel
  downMarkers : List ℚ
  downLabels : List GroupLabel
  fixed : List (VLine × FixedLabel)
  icMark : Option ℚ
deriving DecidableEq, Repr

/-- route.py lines 121-314: the route diagram. Both direction tables are
re-sorted inside draw_route (lines 204, 245); the IC mark is drawn only
when present and in range (line 285). -/
def draw_route_model (up_df down_df : List NumRow) (ic_km : Option ℚ)
    (group_threshold_km : ℚ) (fixed_points : List (String × ℚ)) : RouteFig :=
  let up_sorted := sortKmDesc kmOf up_df
  let down_sorted := sortKmAsc kmOf down_df
  { upMarkers := dir_markers group_threshold_km up_sorted
    upLabels := dir_labels UP_Y_LEVELS group_threshold_km up_sorted
    downMarkers := dir_markers group_threshold_km down_sorted
    downLabels := dir_labels DOWN_Y_LEVELS group_threshold_km down_sorted
    fixed := draw_fixed_points fixed_points
    icMark :=
      match ic_km with
      | none => none
      | some k => if MIN_KM ≤ k ∧ k ≤ MAX_KM then some k else none }

/-! Display names and the list page (route.py lines 43-49, 320-342). -/

/-- Replace every occurrence of the pattern (p :: ps) by repl in the
character list, scanning left to right. -/
def charReplace (p : Char) (ps : List Char) (repl : List Char) : List Char → List Char
  | [] => []
  | c :: cs =>
    if charStartsWith (p :: ps) (c :: cs) then
      repl ++ charReplace p ps repl (List.drop ps.length cs)
    else c :: charReplace p ps repl cs
termination_by l => l.length
decreasing_by
  all_goals simp [List.length_drop]
  omega

/-- Models Series.str.replace with a literal pattern. -/
def strReplaceAll (s pat repl : String) : String :=
  match pat.toList with
  | [] => s
  | p :: ps => String.mk (charReplace p ps repl.toList s.toList)

/-- Remove leading and trailing spaces (models str.strip on line 48). -/
def charStrip (l : List Char) : List Char :=
  ((l.dropWhile (· == ' ')).reverse.dropWhile (· == ' ')).reverse

/-- String version of charStrip. -/
def strStrip (s : String) : String := String.mk (charStrip s.toList)

/-- route.py lines 43-49: 표시이름, the name with the (영암) and (순천)
suffixes removed and surrounding whitespace stripped. -/
def displayName (r : Row) : String :=
  strStrip (strReplaceAll (strReplaceAll r.name "(영암)" "") "(순천)" "")

/-- Two-decimal rendering of a rational, rounding to the nearest
hundredth; models the .2f float format of route.py line 328 for the
non-NaN branch. -/
def fmt2 (x : ℚ) : String :=
  let n : ℤ := round (x * 100)
  let sgn := if n < 0 then "-" else ""
  let m := n.natAbs
  sgn ++ toString (m / 100) ++ "." ++ (if m % 100 < 10 then "0" else "") ++ toString (m % 100)

/-- route.py lines 327-328: a NaN distance is rendered as the placeholder
km 미상, a numeric one as its two-decimal value followed by k. -/
def fmt_km : Option ℚ → String
  | some x => fmt2 x ++ "k"
  | none => "km 미상"

/-- route.py lines 331-336: one line of the list page. -/
def list_line (r : NumRow) : String :=
  toString r.2 ++ ". " ++ displayName r.1 ++ " — " ++ fmt_km r.1.km

/-- The content of the list page (page two). -/
structure ListPage where
  upLines : List String
  downLines : List String
deriving DecidableEq, Repr

/-- route.py lines 320-342: the list page renders one line per numbered
row of each direction, in table order. -/
def draw_list_page_model (up_df down_df : List NumRow) : ListPage :=
  ⟨up_df.map list_line, down_df.map list_line⟩

/-! PDF export (route.py lines 348-372). -/

/-- A figure handed to PdfPages.savefig: either the route diagram or the
bridge-list page. -/
inductive Fig
  | route (f : RouteFig)
  | bridgeList (p : ListPage)
deriving DecidableEq, Repr

/-- The in-memory BytesIO/PdfPages buffer: the pages written so far and
the stream position. -/
structure Buffer where
  pages : List Fig
  pos : Nat
deriving DecidableEq, Repr

/-- A fresh BytesIO buffer (route.py line 361). -/
def Buffer.empty : Buffer := ⟨[], 0⟩

/-- pdf.savefig appends one page and advances the stream position. -/
def Buffer.savefig (b : Buffer) (f : Fig) : Buffer := ⟨b.pages ++ [f], b.pos + 1⟩

/-- pdf_buffer.seek(n) repositions the stream (route.py line 365). -/
def Buffer.seek (b : Buffer) (n : Nat) : Buffer := ⟨b.pages, n⟩

/-- The observable effects of the button handler. The diskWrite
constructor exists so that its absence from the handler trace is a
statement: the handler of route.py lines 348-372 performs no file-system
write, only buffer operations and the download offer. -/
inductive Effect
  | bufferWrite (f : Fig)
  | bufferSeek (n : Nat)
  | diskWrite (path : String)
  | offerDownload (fileName : String) (pages : List Fig)
deriving DecidableEq, Repr

/-- Is the effect a file-system write? -/
def Effect.isDiskWrite : Effect → Bool
  | .diskWrite _ => true
  | _ => false

/-- route.py lines 349-355: the route figure built by the handler. -/
def fig_route_of (rows : List Row) (selUp selDown : List String) (t : ℚ) : RouteFig :=
  draw_route_model (df_up_sorted rows selUp) (df_down_sorted rows selDown)
    (ic_km_of rows) t FIXED_POINTS

/-- route.py line 356: the list figure built by the handler. -/
def fig_list_of (rows : List Row) (selUp selDown : List String) : ListPage :=
  draw_list_page_model (df_up_sorted rows selUp) (df_down_sorted rows selDown)

/-- route.py lines 361-365: the buffer handed to the download button:
two savefig calls into a fresh in-memory buffer, then seek(0). -/
def export_buffer (rows : List Row) (selUp selDown : List String) (t : ℚ) : Buffer :=
  ((Buffer.empty.savefig (Fig.route (fig_route_of rows selUp selDown t))).savefig
      (Fig.bridgeList (fig_list_of rows selUp selDown))).seek 0

/-- The pages of the exported document, in order. -/
def export_pages (rows : List Row) (selUp selDown : List String) (t : ℚ) : List Fig :=
  (export_buffer rows selUp selDown t).pages

/-- route.py lines 361-372 as an effect trace: every step the handler
performs after building the figures. -/
def export_effects (rows : List Row) (selUp selDown : List String) (t : ℚ) : List Effect :=
  [Effect.bufferWrite (Fig.route (fig_route_of rows selUp selDown t)),
   Effect.bufferWrite (Fig.bridgeList (fig_list_of rows selUp selDown)),
   Effect.bufferSeek 0,
   Effect.offerDownload "노선도_및_교량목록.pdf" (export_buffer rows selUp selDown t).pages]

/-! Predicates used to state the grouping invariant, and the total form of
the per-group label. -/

/-- Both rows carry a numeric km and the kms differ by at most t: the
grouping test of route.py line 193. -/
def kmCloseB (t : ℚ) (a b : NumRow) : Bool :=
  match kmOf a, kmOf b with
  | some x, some y => |x - y| ≤ t
  | _, _ => false

/-- The last row of one group and the first row of the next are farther
apart than the threshold. -/
def farApart (t : ℚ) (g h : List NumRow) : Prop :=
  ∀ a ∈ g.getLast?, ∀ b ∈ h.head?, kmCloseB t a b = false

/-- The label mk_group_label produces when the group has at least one
numeric km. -/
def group_label_val (levels : List ℚ) (g_idx : Nat) (g : List NumRow) : GroupLabel :=
  let kms := group_kms g
  let km_anchor := kms.sum / kms.length
  ⟨x_text_of g_idx km_anchor, y_level levels g_idx, label_text g, km_anchor⟩

/-! Concrete example tables used to instantiate the theorems below. -/

/-- Example record whose name contains neither direction marker. -/
def exNeutralRow : Row := ⟨"금강대교", some 10, "교량"⟩

/-- Example table holding a single neutral record. -/
def exRows1 : List Row := [exNeutralRow]

/-- Example table: eleven bridges spaced 0.09 km apart starting at 2.40 km,
already sorted descending and numbered. With the default threshold 0.03 it
yields eleven singleton groups. -/
def exUpC4 : List NumRow :=
  [(⟨"교량1", some (240/100), "교"⟩, 1), (⟨"교량2", some (231/100), "교"⟩, 2),
   (⟨"교량3", some (222/100), "교"⟩, 3), (⟨"교량4", some (213/100), "교"⟩, 4),
   (⟨"교량5", some (204/100), "교"⟩, 5), (⟨"교량6", some (195/100), "교"⟩, 6),
   (⟨"교량7", some (186/100), "교"⟩, 7), (⟨"교량8", some (177/100), "교"⟩, 8),
   (⟨"교량9", some (168/100), "교"⟩, 9), (⟨"교량10", some (159/100), "교"⟩, 10),
   (⟨"교량11", some (150/100), "교"⟩, 11)]

/-- Example table with two widely separated numbered rows. -/
def exTwo : List NumRow := [(⟨"교량A", some 60, "교"⟩, 1), (⟨"교량B", some 50, "교"⟩, 2)]

/-- Example record whose km failed numeric coercion. -/
def exNanRow : Row := ⟨"무명교", none, "교량"⟩

/-- Example table holding one numeric record and one NaN record. -/
def exRowsNan : List Row := [⟨"영암대교", some 20, "교량"⟩, exNanRow]

/-! Theorems start here. First, order facts about the two sort keys. -/

theorem kmDescLe_trans (a b c : Option ℚ) (h1 : kmDescLe a b = true)
    (h2 : kmDescLe b c = true) : kmDescLe a c = true := by
  cases a <;> cases b <;> cases c <;> simp_all [kmDescLe] <;> exact le_trans h2 h1

theorem kmDescLe_total (a b : Option ℚ) : kmDescLe a b || kmDescLe b a := by
  cases a <;> cases b <;> simp [kmDescLe] <;> exact le_total _ _

theorem kmAscLe_trans (a b c : Option ℚ) (h1 : kmAscLe a b = true)
    (h2 : kmAscLe b c = true) : kmAscLe a c = true := by
  cases a <;> cases b <;> cases c <;> simp_all [kmAscLe] <;> exact le_trans h1 h2

theorem kmAscLe_total (a b : Option ℚ) : kmAscLe a b || kmAscLe b a := by
  cases a <;> cases b <;> simp [kmAscLe] <;> exact le_total _ _

theorem sortKmDesc_perm {α : Type} (km : α → Option ℚ) (l : List α) :
    (sortKmDesc km l).Perm l :=
  List.mergeSort_perm l _

theorem sortKmAsc_perm {α : Type} (km : α → Option ℚ) (l : List α) :
    (sortKmAsc km l).Perm l :=
  List.mergeSort_perm l _

theorem sortKmDesc_sorted {α : Type} (km : α → Option ℚ) (l : List α) :
    List.Pairwise (fun a b => kmDescLe (km a) (km b) = true) (sortKmDesc km l) :=
  List.sorted_mergeSort (fun a b c => kmDescLe_trans (km a) (km b) (km c))
    (fun a b => kmDescLe_total (km a) (km b)) l

theorem sortKmAsc_sorted {α : Type} (km : α → Option ℚ) (l : List α) :
    List.Pairwise (fun a b => kmAscLe (km a) (km b) = true) (sortKmAsc km l) :=
  List.sorted_mergeSort (fun a b c => kmAscLe_trans (km a) (km b) (km c))
    (fun a b => kmAscLe_total (km a) (km b)) l

/-! Facts about the numbering step. -/

theorem numberFrom_map_fst (k : Nat) (l : List Row) :
    (numberFrom k l).map Prod.fst = l := by
  induction l generalizing k with
  | nil => rfl
  | cons a as ih => simp [numberFrom, ih]

theorem numberFrom_map_snd (k : Nat) (l : List Row) :
    (numberFrom k l).map Prod.snd = List.range' k l.length := by
  induction l generalizing k with
  | nil => rfl
  | cons a as ih => simp [numberFrom, ih, List.range']

theorem numberFrom_mem : ∀ (l : List Row) (k : Nat) (r : Row), r ∈ l →
    ∃ n, (r, n) ∈ numberFrom k l := by
  intro l
  induction l with
  | nil => intro k r h; cases h
  | cons a as ih =>
    intro k r h
    rcases List.mem_cons.1 h with rfl | h'
    · exact ⟨k, by simp [numberFrom]⟩
    · obtain ⟨n, hn⟩ := ih (k + 1) r h'
      exact ⟨n, by simp [numberFrom, hn]⟩

/-- C2: for each direction the assigned display numbers are sequential
with no gaps: the Yeongam table is a permutation of its input sorted by km
descending (NaN last), the Suncheon table ascending (NaN last), and the
row at 0-based position i receives 번호 = i + 1, so the numbers read
exactly 1, 2, ..., n in sorted order. -/
theorem display_numbers_sequential (rows : List Row) (selUp selDown : List String) :
    (df_up_sorted rows selUp).map Prod.snd = List.range' 1 (df_up rows selUp).length
    ∧ (df_down_sorted rows selDown).map Prod.snd = List.range' 1 (df_down rows selDown).length
    ∧ ((df_up_sorted rows selUp).map Prod.fst).Perm (df_up rows selUp)
    ∧ ((df_down_sorted rows selDown).map Prod.fst).Perm (df_down rows selDown)
    ∧ List.Pairwise (fun a b => kmDescLe a.km b.km = true)
        ((df_up_sorted rows selUp).map Prod.fst)
    ∧ List.Pairwise (fun a b => kmAscLe a.km b.km = true)
        ((df_down_sorted rows selDown).map Prod.fst) := by
  refine ⟨?_, ?_, ?_, ?_, ?_, ?_⟩
  · rw [df_up_sorted, assign_numbers, numberFrom_map_snd,
      (sortKmDesc_perm Row.km _).length_eq]
  · rw [df_down_sorted, assign_numbers, numberFrom_map_snd,
      (sortKmAsc_perm Row.km _).length_eq]
  · rw [df_up_sorted, assign_numbers, numberFrom_map_fst]
    exact sortKmDesc_perm Row.km _
  · rw [df_down_sorted, assign_numbers, numberFrom_map_fst]
    exact sortKmAsc_perm Row.km _
  · rw [df_up_sorted, assign_numbers, numberFrom_map_fst]
    exact sortKmDesc_sorted Row.km _
  · rw [df_down_sorted, assign_numbers, numberFrom_map_fst]
    exact sortKmAsc_sorted Row.km _

/-- Witness for C2 at a concrete table: the numbers of the Yeongam side of
exRowsNan are exactly 1, 2. -/
theorem display_numbers_sequential_witness :
    (df_up_sorted exRowsNan []).map Prod.snd = List.range' 1 (df_up exRowsNan []).length :=
  (display_numbers_sequential exRowsNan [] []).1

/-! The grouping loop invariant. The loop state (prev km, pending group)
always satisfies: the pending group is a nonempty run of close rows whose
last row has km prev. -/

theorem iterGroupsLoop_spec (t : ℚ) (l : List NumRow) :
    ∀ (pk : ℚ) (group : List NumRow), group ≠ [] →
    List.Chain' (fun a b => kmCloseB t a b = true) group →
    (∀ a ∈ group.getLast?, kmOf a = some pk) →
    (iterGroupsLoop t (some pk) group l).flatten
        = group ++ l.filter (fun r => (kmOf r).isSome)
    ∧ (∀ g ∈ iterGroupsLoop t (some pk) group l, g ≠ [])
    ∧ (∀ g ∈ iterGroupsLoop t (some pk) group l,
        List.Chain' (fun a b => kmCloseB t a b = true) g)
    ∧ List.Chain' (farApart t) (iterGroupsLoop t (some pk) group l)
    ∧ ∃ s gs, iterGroupsLoop t (some pk) group l = (group ++ s) :: gs := by
  induction l with
  | nil =>
    intro pk group hg hch hlast
    simp only [iterGroupsLoop, if_neg hg]
    refine ⟨by simp, ?_, ?_, ?_, ⟨[], [], by simp⟩⟩
    · intro g hmem
      rw [List.mem_singleton] at hmem
      exact hmem ▸ hg
    · intro g hmem
      rw [List.mem_singleton] at hmem
      exact hmem ▸ hch
    · exact List.chain'_singleton group
  | cons r rest ih =>
    intro pk group hg hch hlast
    cases hr : kmOf r with
    | none =>
      simp only [iterGroupsLoop, hr]
      have h := ih pk group hg hch hlast
      simpa [List.filter_cons, hr] using h
    | some km =>
      simp only [iterGroupsLoop, hr]
      by_cases hc : |pk - km| ≤ t
      · rw [if_pos hc]
        have hg' : group ++ [r] ≠ [] := by simp
        have hch' : List.Chain' (fun a b => kmCloseB t a b = true) (group ++ [r]) := by
          refine List.chain'_append.2 ⟨hch, List.chain'_singleton r, ?_⟩
          intro x hx y hy
          rw [List.head?_cons, Option.mem_some_iff] at hy
          subst hy
          have hx' := hlast x hx
          simp only [kmCloseB, hx', hr]
          exact decide_eq_true hc
        have hlast' : ∀ a ∈ (group ++ [r]).getLast?, kmOf a = some km := by
          intro a ha
          rw [List.getLast?_concat, Option.mem_some_iff] at ha
          subst ha
          exact hr
        obtain ⟨ih1, ih2, ih3, ih4, s, gs, heq⟩ := ih km (group ++ [r]) hg' hch' hlast'
        refine ⟨?_, ih2, ih3, ih4, ⟨[r] ++ s, gs, ?_⟩⟩
        · rw [ih1]
          simp [List.filter_cons, hr]
        · rw [heq, List.append_assoc]
      · rw [if_neg hc]
        have hlast' : ∀ a ∈ ([r] : List NumRow).getLast?, kmOf a = some km := by
          intro a ha
          simp only [List.getLast?_singleton, Option.mem_some_iff] at ha
          subst ha
          exact hr
        obtain ⟨ih1, ih2, ih3, ih4, s, gs, heq⟩ :=
          ih km [r] (by simp) (List.chain'_singleton r) hlast'
        refine ⟨?_, ?_, ?_, ?_, ⟨[], iterGroupsLoop t (some km) [r] rest, by simp⟩⟩
        · simp only [List.flatten_cons, ih1]
          simp [List.filter_cons, hr]
        · intro g hmem
          rcases List.mem_cons.1 hmem with rfl | h2
          · exact hg
          · exact ih2 g h2
        · intro g hmem
          rcases List.mem_cons.1 hmem with rfl | h2
          · exact hch
          · exact ih3 g h2
        · refine List.chain'_cons'.2 ⟨?_, ih4⟩
          intro h hh
          rw [heq] at hh
          rw [List.head?_cons, Option.mem_some_iff] at hh
          subst hh
          intro a ha b hb
          rw [List.singleton_append, List.head?_cons, Option.mem_some_iff] at hb
          subst hb
          have ha' := hlast a ha
          simp only [kmCloseB, ha', hr]
          exact decide_eq_false hc

/-- The grouping of route.py partitions the non-NaN rows: concatenating
the groups gives back exactly the non-NaN rows in order, every group is
nonempty, rows adjacent inside a group are within the threshold, and the
boundary rows of consecutive groups are beyond the threshold. -/
theorem iter_groups_spec (t : ℚ) (l : List NumRow) :
    (iter_groups t l).flatten = l.filter (fun r => (kmOf r).isSome)
    ∧ (∀ g ∈ iter_groups t l, g ≠ [])
    ∧ (∀ g ∈ iter_groups t l, List.Chain' (fun a b => kmCloseB t a b = true) g)
    ∧ List.Chain' (farApart t) (iter_groups t l) := by
  rw [iter_groups]
  induction l with
  | nil => simp [iterGroupsLoop]
  | cons r rest ih =>
    cases hr : kmOf r with
    | none =>
      simp only [iterGroupsLoop, hr]
      simpa [List.filter_cons, hr] using ih
    | some km =>
      simp only [iterGroupsLoop, hr]
      have hlast' : ∀ a ∈ ([r] : List NumRow).getLast?, kmOf a = some km := by
        intro a ha
        simp only [List.getLast?_singleton, Option.mem_some_iff] at ha
        subst ha
        exact hr
      obtain ⟨h1, h2, h3, h4, s, gs, heq⟩ :=
        iterGroupsLoop_spec t rest km [r] (by simp) (List.chain'_singleton r) hlast'
      refine ⟨?_, h2, h3, h4⟩
      rw [h1]
      simp [List.filter_cons, hr]

/-- C3: iter_groups partitions the rows with numeric km of a table into
consecutive nonempty groups: concatenating the groups yields exactly the
non-NaN rows in their original order (so every non-NaN row is in exactly
one group and order is preserved within and across groups), rows adjacent
inside a group differ by at most the threshold, and the adjacent boundary
rows of two consecutive groups differ by more than the threshold. -/
theorem iter_groups_partition (t : ℚ) (l : List NumRow) :
    (iter_groups t l).flatten = l.filter (fun r => (kmOf r).isSome)
    ∧ (∀ g ∈ iter_groups t l, g ≠ [])
    ∧ (∀ g ∈ iter_groups t l, List.Chain' (fun a b => kmCloseB t a b = true) g)
    ∧ List.Chain' (farApart t) (iter_groups t l) :=
  iter_groups_spec t l

/-- Witness for C3 at a concrete table: on exUpC4 with threshold 0.03 the
groups flatten back to the non-NaN rows. -/
theorem iter_groups_partition_witness :
    (iter_groups (3/100) exUpC4).flatten
      = exUpC4.filter (fun r => (kmOf r).isSome) :=
  (iter_groups_partition (3/100) exUpC4).1

/-! Derived grouping facts used by the label and NaN claims. -/

theorem iter_groups_mem_isSome (t : ℚ) (l : List NumRow) :
    ∀ g ∈ iter_groups t l, ∀ x ∈ g, (kmOf x).isSome := by
  intro g hg x hx
  have hx' : x ∈ (iter_groups t l).flatten := List.mem_flatten.2 ⟨g, hg, hx⟩
  rw [(iter_groups_spec t l).1] at hx'
  exact (List.mem_filter.1 hx').2

theorem group_kms_ne_nil (t : ℚ) (l : List NumRow) :
    ∀ g ∈ iter_groups t l, group_kms g ≠ [] := by
  intro g hg
  obtain ⟨x, hx⟩ := List.exists_mem_of_ne_nil g ((iter_groups_spec t l).2.1 g hg)
  obtain ⟨k, hk⟩ := Option.isSome_iff_exists.1 (iter_groups_mem_isSome t l g hg x hx)
  exact List.ne_nil_of_mem (List.mem_filterMap.2 ⟨x, hx, hk⟩)

theorem mk_group_label_eq (levels : List ℚ) (i : Nat) (g : List NumRow)
    (h : group_kms g ≠ []) :
    mk_group_label levels i g = some (group_label_val levels i g) := by
  simp [mk_group_label, group_label_val, h]

theorem filterMap_eq_map_of_some {α β : Type} (l : List α) (f : α → Option β) (g : α → β)
    (h : ∀ x ∈ l, f x = some (g x)) : l.filterMap f = l.map g := by
  induction l with
  | nil => rfl
  | cons a as ih =>
    rw [List.filterMap_cons, h a (List.mem_cons_self a as), List.map_cons,
      ih (fun x hx => h x (List.mem_cons_of_mem a hx))]

theorem dir_labels_eq_map (levels : List ℚ) (t : ℚ) (sorted : List NumRow) :
    dir_labels levels t sorted
      = (iter_groups t sorted).enum.map (fun p => group_label_val levels p.1 p.2) := by
  rw [dir_labels]
  refine filterMap_eq_map_of_some _ _ _ ?_
  intro p hp
  obtain ⟨i, g⟩ := p
  rw [List.enum_eq_zip_range] at hp
  exact mk_group_label_eq levels i g
    (group_kms_ne_nil t sorted g (List.of_mem_zip hp).2)

theorem group_label_val_y (levels : List ℚ) (i : Nat) (g : List NumRow) :
    (group_label_val levels i g).y = y_level levels i := rfl

theorem dir_labels_y (levels : List ℚ) (t : ℚ) (sorted : List NumRow) (i : Nat)
    (li : GroupLabel) (hi : (dir_labels levels t sorted)[i]? = some li) :
    li.y = y_level levels i := by
  rw [dir_labels_eq_map, List.getElem?_map, List.getElem?_enum] at hi
  cases hg : (iter_groups t sorted)[i]? with
  | none => rw [hg] at hi; cases hi
  | some g =>
    rw [hg] at hi
    simp only [Option.map_some'] at hi
    cases hi
    rfl

theorem up_y_levels_inj :
    ∀ a b : Fin 6, a ≠ b → UP_Y_LEVELS.getD a.val 0 ≠ UP_Y_LEVELS.getD b.val 0 :=
  of_decide_eq_true (by with_unfolding_all rfl)

theorem down_y_levels_inj :
    ∀ a b : Fin 6, a ≠ b → DOWN_Y_LEVELS.getD a.val 0 ≠ DOWN_Y_LEVELS.getD b.val 0 :=
  of_decide_eq_true (by with_unfolding_all rfl)

/-! C1: direction classification. -/

/-- C1 counterexample: the record 금강대교 contains neither marker, and the
code puts every such neutral record into both base sets, so df_up_base and
df_down_base are not disjoint and the record is not in exactly one group. -/
theorem direction_groups_not_disjoint_cex :
    exNeutralRow ∈ df_up_base exRows1 ∧ exNeutralRow ∈ df_down_base exRows1 := by
  constructor <;> decide

/-- C1 amended: a record whose name contains 영암 only is exactly in the
Yeongam base set and one containing 순천 only exactly in the Suncheon base
set; the two base sets together cover all records; but a record is in both
base sets precisely when its name contains both markers or neither, so the
base sets are not disjoint in general. -/
theorem direction_groups_cover (rows : List Row) (r : Row) (hr : r ∈ rows) :
    (r ∈ df_up_base rows ∨ r ∈ df_down_base rows)
    ∧ (has_yeongam r = true ∧ has_suncheon r = false →
        r ∈ df_up_base rows ∧ r ∉ df_down_base rows)
    ∧ (has_suncheon r = true ∧ has_yeongam r = false →
        r ∈ df_down_base rows ∧ r ∉ df_up_base rows)
    ∧ ((r ∈ df_up_base rows ∧ r ∈ df_down_base rows)
        ↔ has_yeongam r = has_suncheon r) := by
  cases hy : has_yeongam r <;> cases hs : has_suncheon r <;>
    simp [df_up_base, df_down_base, List.mem_filter, neutral, hy, hs, hr]

/-- Witness for C1 amended at the concrete neutral table. -/
theorem direction_groups_cover_witness :
    exNeutralRow ∈ df_up_base exRows1 ∨ exNeutralRow ∈ df_down_base exRows1 :=
  (direction_groups_cover exRows1 exNeutralRow (by decide)).1

/-! C4: label overlap. -/

/-- C4 counterexample: on exUpC4 with the default threshold 0.03 the
diagram has eleven groups, and the distinct groups at indices 4 and 10
(offset -2.4, same level since 10 = 4 mod 6) are both clamped to the same
label text position (0.05, 1.2), so label positions of distinct groups of
the same direction are not always distinct. -/
theorem route_labels_overlap_cex :
    ((draw_route_model exUpC4 [] none (3/100) []).upLabels[4]?).map
        (fun l => (l.x, l.y)) = some (1/20, 6/5)
    ∧ ((draw_route_model exUpC4 [] none (3/100) []).upLabels[10]?).map
        (fun l => (l.x, l.y)) = some (1/20, 6/5)
    ∧ ((draw_route_model exUpC4 [] none (3/100) []).upLabels[4]?).map
        (fun l => l.text) = some "(5)"
    ∧ ((draw_route_model exUpC4 [] none (3/100) []).upLabels[10]?).map
        (fun l => l.text) = some "(11)" :=
  ⟨of_decide_eq_true (by with_unfolding_all rfl),
   of_decide_eq_true (by with_unfolding_all rfl),
   of_decide_eq_true (by with_unfolding_all rfl),
   of_decide_eq_true (by with_unfolding_all rfl)⟩

/-- C4 amended: two distinct groups of the same direction receive distinct
label text positions whenever their group indices are not congruent modulo
six, because the six y levels of each direction are pairwise distinct;
groups whose indices are congruent modulo six share their y level and can
also collide in x after clamping, so distinctness does not hold for every
pair of distinct groups. -/
theorem route_labels_distinct_mod6 (up_df down_df : List NumRow) (ic : Option ℚ)
    (t : ℚ) (fps : List (String × ℚ)) (i j : Nat) (hij : i % 6 ≠ j % 6) :
    (∀ li lj : GroupLabel,
        (draw_route_model up_df down_df ic t fps).upLabels[i]? = some li →
        (draw_route_model up_df down_df ic t fps).upLabels[j]? = some lj →
        (li.x, li.y) ≠ (lj.x, lj.y))
    ∧ (∀ li lj : GroupLabel,
        (draw_route_model up_df down_df ic t fps).downLabels[i]? = some li →
        (draw_route_model up_df down_df ic t fps).downLabels[j]? = some lj →
        (li.x, li.y) ≠ (lj.x, lj.y)) := by
  have hi6 : i % 6 < 6 := Nat.mod_lt i (by norm_num)
  have hj6 : j % 6 < 6 := Nat.mod_lt j (by norm_num)
  constructor
  · intro li lj hi hj heq
    have hyi : li.y = y_level UP_Y_LEVELS i :=
      dir_labels_y UP_Y_LEVELS t (sortKmDesc kmOf up_df) i li hi
    have hyj : lj.y = y_level UP_Y_LEVELS j :=
      dir_labels_y UP_Y_LEVELS t (sortKmDesc kmOf up_df) j lj hj
    have hy : li.y = lj.y := congrArg Prod.snd heq
    rw [hyi, hyj] at hy
    exact up_y_levels_inj ⟨i % 6, hi6⟩ ⟨j % 6, hj6⟩ (Fin.ne_of_val_ne hij) hy
  · intro li lj hi hj heq
    have hyi : li.y = y_level DOWN_Y_LEVELS i :=
      dir_labels_y DOWN_Y_LEVELS t (sortKmAsc kmOf down_df) i li hi
    have hyj : lj.y = y_level DOWN_Y_LEVELS j :=
      dir_labels_y DOWN_Y_LEVELS t (sortKmAsc kmOf down_df) j lj hj
    have hy : li.y = lj.y := congrArg Prod.snd heq
    rw [hyi, hyj] at hy
    exact down_y_levels_inj ⟨i % 6, hi6⟩ ⟨j % 6, hj6⟩ (Fin.ne_of_val_ne hij) hy

/-- Witness for C4 amended: on exTwo the first two group labels, whose
indices 0 and 1 differ modulo 6, sit at distinct positions. -/
theorem route_labels_distinct_mod6_witness :
    ((296 : ℚ)/5, (28 : ℚ)/25) ≠ ((254 : ℚ)/5, (9 : ℚ)/10) :=
  (route_labels_distinct_mod6 exTwo [] none (3/100) [] 0 1 (by decide)).1
    ⟨296/5, 28/25, "(1)", 60⟩ ⟨254/5, 9/10, "(2)", 50⟩
    (of_decide_eq_true (by with_unfolding_all rfl))
    (of_decide_eq_true (by with_unfolding_all rfl))

/-! C6: offsets and clamping. -/

theorem abs_x_offset_le : ∀ k : Fin 6, |X_OFFSETS.getD k.val 0| ≤ 12/5 :=
  of_decide_eq_true (by with_unfolding_all rfl)

/-- C6: every group label x coordinate stays inside
[MIN_KM + 0.05, MAX_KM - 0.05] = [0.05, 106.75]; the horizontal offset is
drawn cyclically from the six-element pattern, so its magnitude never
exceeds 2.4 and repeats with period six instead of growing; near either
edge the raw offset points inward; and the final x is the clamp of the
raw position. -/
theorem label_x_clamped (i : Nat) (a : ℚ) :
    MIN_KM + 5/100 ≤ x_text_of i a
    ∧ x_text_of i a ≤ MAX_KM - 5/100
    ∧ |x_offset_of i| ≤ 12/5
    ∧ x_offset_of (i + 6) = x_offset_of i
    ∧ (a < MIN_KM + EDGE_MARGIN_KM → a ≤ x_raw i a)
    ∧ (MAX_KM - EDGE_MARGIN_KM < a → x_raw i a ≤ a)
    ∧ x_text_of i a = clamp_x (x_raw i a) := by
  refine ⟨?_, ?_, ?_, ?_, ?_, ?_, rfl⟩
  · rw [x_text_of, clamp_x]
    refine le_min (le_max_right _ _) ?_
    rw [MIN_KM, MAX_KM]
    norm_num
  · rw [x_text_of, clamp_x]
    exact min_le_right _ _
  · exact abs_x_offset_le ⟨i % 6, Nat.mod_lt i (by norm_num)⟩
  · simp [x_offset_of, show X_OFFSETS.length = 6 from rfl, Nat.add_mod_right]
  · intro h
    simp only [x_raw]
    rw [if_pos h]
    exact le_add_of_nonneg_right (abs_nonneg _)
  · intro h
    have h1 : ¬ (a < MIN_KM + EDGE_MARGIN_KM) := by
      rw [MIN_KM, EDGE_MARGIN_KM]
      rw [MAX_KM, EDGE_MARGIN_KM] at h
      push_neg
      linarith
    simp only [x_raw]
    rw [if_neg h1, if_pos h]
    exact sub_le_self _ (abs_nonneg _)

/-- Witness for C6 at offset index 0 and anchor 1 (inside the left edge
margin, so the offset points right). -/
theorem label_x_clamped_witness :
    MIN_KM + 5/100 ≤ x_text_of 0 1 ∧ (1 : ℚ) ≤ x_raw 0 1 :=
  ⟨(label_x_clamped 0 1).1,
   (label_x_clamped 0 1).2.2.2.2.1 (of_decide_eq_true (by with_unfolding_all rfl))⟩

/-! C5 and C7: the PDF export. -/

/-- C5: pressing the generate button exports a document with exactly two
pages, page one the route diagram and page two the textual bridge list, in
that order, and this very page list is handed to the download button. -/
theorem export_two_pages (rows : List Row) (selUp selDown : List String) (t : ℚ) :
    export_pages rows selUp selDown t
      = [Fig.route (fig_route_of rows selUp selDown t),
         Fig.bridgeList (fig_list_of rows selUp selDown)]
    ∧ (export_pages rows selUp selDown t).length = 2
    ∧ Effect.offerDownload "노선도_및_교량목록.pdf" (export_pages rows selUp selDown t)
        ∈ export_effects rows selUp selDown t := by
  refine ⟨rfl, rfl, ?_⟩
  simp [export_effects, export_pages]

/-- C7: the export allocates no persistent resource: every effect of the
button handler is an in-memory buffer operation or the download offer
(none is a file-system write), and the buffer handed to the download
button holds the two pages with its position rewound to 0. -/
theorem export_in_memory (rows : List Row) (selUp selDown : List String) (t : ℚ) :
    (∀ e ∈ export_effects rows selUp selDown t, e.isDiskWrite = false)
    ∧ export_buffer rows selUp selDown t
        = ⟨[Fig.route (fig_route_of rows selUp selDown t),
            Fig.bridgeList (fig_list_of rows selUp selDown)], 0⟩ := by
  refine ⟨?_, rfl⟩
  intro e he
  simp only [export_effects, List.mem_cons, List.not_mem_nil, or_false] at he
  rcases he with rfl | rfl | rfl | rfl <;> rfl

/-! C8: selection semantics. -/

/-- C8: an empty multiselect for a direction means show-all: the full base
set of the direction is used; a non-empty selection keeps exactly the rows
whose name is in the selected list. -/
theorem empty_selection_shows_all (rows : List Row) (sel : List String) :
    (sel = [] → df_up rows sel = df_up_base rows ∧ df_down rows sel = df_down_base rows)
    ∧ (sel ≠ [] → ∀ r : Row,
        (r ∈ df_up rows sel ↔ r ∈ rows ∧ r.name ∈ sel)
        ∧ (r ∈ df_down rows sel ↔ r ∈ rows ∧ r.name ∈ sel)) := by
  constructor
  · intro h
    subst h
    exact ⟨rfl, rfl⟩
  · intro h r
    rw [df_up, df_down, if_neg h, if_neg h]
    constructor <;>
      · rw [List.mem_filter]
        simp

/-- Witness for C8: with an empty selection the Yeongam side of exRowsNan
is its full base set. -/
theorem empty_selection_shows_all_witness :
    df_up exRowsNan [] = df_up_base exRowsNan ∧ df_down exRowsNan [] = df_down_base exRowsNan :=
  (empty_selection_shows_all exRowsNan []).1 rfl

/-! C9: fixed points. -/

/-- C9: the fixed-point marks are independent of the user input (selected
bridges, threshold, IC mark): the fixed part of the figure depends only on
the fixed-point list. Every entry of FIXED_POINTS is drawn as a
through-going vertical line from y_down - 0.35 to y_up + 0.35 with its
label at y_up + 0.4, the 지사 기준 line with width 2.2 and every other
line with the smaller width 1.2. -/
theorem fixed_points_fixed (up1 down1 : List NumRow) (ic1 : Option ℚ) (t1 : ℚ)
    (up2 down2 : List NumRow) (ic2 : Option ℚ) (t2 : ℚ) (fps : List (String × ℚ)) :
    (draw_route_model up1 down1 ic1 t1 fps).fixed
        = (draw_route_model up2 down2 ic2 t2 fps).fixed
    ∧ (draw_route_model up1 down1 ic1 t1 fps).fixed = draw_fixed_points fps
    ∧ draw_fixed_points FIXED_POINTS
        = FIXED_POINTS.map (fun p =>
            (⟨p.2, y_down - 35/100, y_up + 35/100,
              if p.1 = "지사 기준" then 22/10 else 12/10⟩,
             ⟨p.2, y_up + TEXT_DY, p.1⟩))
    ∧ TEXT_DY = 40/100
    ∧ (12 : ℚ)/10 < 22/10 :=
  ⟨rfl, rfl, by with_unfolding_all rfl, rfl,
   of_decide_eq_true (by with_unfolding_all rfl)⟩

/-- Witness for C9: two runs with different tables, thresholds and IC
marks draw the same fixed points. -/
theorem fixed_points_fixed_witness :
    (draw_route_model exTwo [] none 1 FIXED_POINTS).fixed
      = (draw_route_model [] exTwo (some 5) (3/100) FIXED_POINTS).fixed :=
  (fixed_points_fixed exTwo [] none 1 [] exTwo (some 5) (3/100) FIXED_POINTS).1

/-! C10: NaN rows. -/

theorem filterMap_kmOf_filter (l : List NumRow) :
    (l.filter (fun r => (kmOf r).isSome)).filterMap kmOf = l.filterMap kmOf := by
  induction l with
  | nil => rfl
  | cons a as ih =>
    cases ha : kmOf a with
    | none => simp [List.filter_cons, List.filterMap_cons, ha, ih]
    | some k => simp [List.filter_cons, List.filterMap_cons, ha, ih]

theorem dir_markers_eq (t : ℚ) (l : List NumRow) :
    dir_markers t l = l.filterMap kmOf := by
  show ((iter_groups t l).map (List.filterMap kmOf)).flatten = l.filterMap kmOf
  rw [← List.filterMap_flatten, (iter_groups_spec t l).1, filterMap_kmOf_filter]

/-- C10: a row whose km failed numeric coercion (km = NaN) is excluded
from every label group, contributes no marker to the diagram, but still
receives a display number and appears on the list page with the km 미상
placeholder in place of its distance. -/
theorem nan_row_listed_not_drawn (rows : List Row) (selUp selDown : List String)
    (t : ℚ) (r : Row) (hr : r.km = none) :
    (∀ l : List NumRow, ∀ g ∈ iter_groups t l, ∀ n : Nat, (r, n) ∉ g)
    ∧ (∀ l1 l2 : List NumRow, ∀ n : Nat,
        dir_markers t (l1 ++ (r, n) :: l2) = dir_markers t (l1 ++ l2))
    ∧ (r ∈ df_up rows selUp → ∃ n, (r, n) ∈ df_up_sorted rows selUp
        ∧ list_line (r, n) = toString n ++ ". " ++ displayName r ++ " — " ++ "km 미상"
        ∧ ∀ d : List NumRow,
            list_line (r, n) ∈ (draw_list_page_model (df_up_sorted rows selUp) d).upLines)
    ∧ (r ∈ df_down rows selDown → ∃ n, (r, n) ∈ df_down_sorted rows selDown
        ∧ list_line (r, n) = toString n ++ ". " ++ displayName r ++ " — " ++ "km 미상"
        ∧ ∀ u : List NumRow,
            list_line (r, n) ∈ (draw_list_page_model u (df_down_sorted rows selDown)).downLines) := by
  refine ⟨?_, ?_, ?_, ?_⟩
  · intro l g hg n hmem
    have h := iter_groups_mem_isSome t l g hg (r, n) hmem
    simp [kmOf, hr] at h
  · intro l1 l2 n
    simp [dir_markers_eq, List.filterMap_append, List.filterMap_cons, kmOf, hr]
  · intro hmem
    have hsorted : r ∈ sortKmDesc Row.km (df_up rows selUp) :=
      ((sortKmDesc_perm Row.km (df_up rows selUp)).mem_iff).2 hmem
    obtain ⟨n, hn⟩ := numberFrom_mem _ 1 r hsorted
    refine ⟨n, hn, ?_, ?_⟩
    · simp [list_line, hr, fmt_km]
    · intro d
      exact List.mem_map_of_mem list_line hn
  · intro hmem
    have hsorted : r ∈ sortKmAsc Row.km (df_down rows selDown) :=
      ((sortKmAsc_perm Row.km (df_down rows selDown)).mem_iff).2 hmem
    obtain ⟨n, hn⟩ := numberFrom_mem _ 1 r hsorted
    refine ⟨n, hn, ?_, ?_⟩
    · simp [list_line, hr, fmt_km]
    · intro u
      exact List.mem_map_of_mem list_line hn

/-- Witness for C10: the NaN record of exRowsNan is numbered and listed
with the placeholder. -/
theorem nan_row_listed_not_drawn_witness :
    ∃ n, (exNanRow, n) ∈ df_up_sorted exRowsNan []
      ∧ list_line (exNanRow, n)
          = toString n ++ ". " ++ displayName exNanRow ++ " — " ++ "km 미상"
      ∧ ∀ d : List NumRow,
          list_line (exNanRow, n) ∈ (draw_list_page_model (df_up_sorted exRowsNan []) d).upLines :=
  (nan_row_listed_not_drawn exRowsNan [] [] (3/100) exNanRow rfl).2.2.1 (by decide)

end CreateRoute
